import Mathlib

/-!
Verification of the hybrid dual-signature provider of quantum-ledger.

The Go sources contain one complete facade (`HybridBCCSP` with ECDSA and
Dilithium3 signing, combined wire format, AND-of-both verification) plus a
set of earlier draft files under `bccsp/hybrid/` whose `Sign`/`Verify` only
handle the post-quantum half.  We shallowly embed both: byte slices become
`List Nat`, Go's `(value, error)` returns become `Except`/`Option` pairs,
and a Go run-time panic (out-of-range slice, nil dereference) becomes the
`GoRes.panicked` result.  `uint32` arithmetic is `Nat` arithmetic taken
`% 2^32` exactly where the Go code converts.
-/

/-- Byte slices (`[]byte`). Entries are byte values; the codec facts proved
below never depend on entries being below 256, only on the written length
bytes, which are below 256 by construction. -/
abbrev Bytes := List Nat

/-- Model of `binary.BigEndian.PutUint32`: the four big-endian bytes of a `uint32`
value `v` (callers pass the already-truncated `v % 2^32`). -/
def putUint32BE (v : Nat) : Bytes :=
  [v / 16777216 % 256, v / 65536 % 256, v / 256 % 256, v % 256]

/-- Model of `binary.BigEndian.Uint32`: big-endian value of the first four bytes.
Both parsers call it only after checking `len ≥ 4`, so the default branch is
unreachable in every use below. -/
def beUint32 (b : Bytes) : Nat :=
  match b with
  | b0 :: b1 :: b2 :: b3 :: _ => b0 * 16777216 + b1 * 65536 + b2 * 256 + b3
  | _ => 0

deriving instance DecidableEq for Except

/-- Result of running a Go function that may panic at run time
(out-of-range slice expression, nil-pointer dereference). -/
inductive GoRes (α : Type) where
  | ok (val : α)
  | panicked
deriving DecidableEq, Repr

/-- Error values produced by the hybrid provider and its collaborators.
Each wrapping constructor corresponds to one `fmt.Errorf("...: %w", err)`
site in the Go sources; `sw`/`oqs` stand for raw errors coming out of the
classical BCCSP respectively the liboqs wrapper.  `invalidKeyMaterial` is
the error class named by the specification's taxonomy; no code path in the
repository constructs it. -/
inductive HErr where
  | sw (msg : String)
  | oqs (msg : String)
  | ecdsaKeyGenFailed (cause : HErr)
  | pqcInitFailed (cause : HErr)
  | pqcKeyGenFailed (cause : HErr)
  | ecdsaSignFailed (cause : HErr)
  | pqcSignFailed (cause : HErr)
  | parseSignatureFailed (cause : HErr)
  | ecdsaVerifyFailed (cause : HErr)
  | ecdsaVerifyRejected
  | pqcVerifyFailed (cause : HErr)
  | sigTooShort
  | invalidSigFormat
  | ecdsaLenExceeds
  | invalidKeyType
  | pqcPubEmpty
  | invalidKeyMaterial
deriving DecidableEq, Repr

/-- A classical (ECDSA) key handle as seen through `bccsp.Key`: opaque key
material plus its `Private()` flag. -/
structure CKey where
  material : Bytes
  priv : Bool
deriving DecidableEq, Repr

/-- The `hybridKey` of the complete facade: a classical key, the post-quantum
public key bytes, and the post-quantum private material (`nil` ↦ `none`).
The draft `key.go` stores a live `*PQCSigner` handle instead of raw bytes;
we represent that handle by the secret bytes it owns, `nil` ↦ `none`. -/
structure HybKey where
  ecdsaKey : CKey
  pqcPub : Bytes
  pqcPriv : Option Bytes
deriving DecidableEq, Repr

/-- A `bccsp.Key` value reaching the facade: either a plain classical key or
a `*hybridKey` (the Go type switch `k.(*hybridKey)`). -/
inductive Key where
  | classical (k : CKey)
  | hybrid (k : HybKey)
deriving DecidableEq, Repr

/-- The classical signing adapter (`h.sw`, the software BCCSP), an external
collaborator modelled by its interface: key generation, public-key
projection, signing, verification.  Verification returns Go's
`(bool, error)` pair since `(false, nil)` is meaningful. -/
structure SwBCCSP where
  keyGen : Except HErr CKey
  pub : CKey → Except HErr CKey
  sign : CKey → Bytes → Except HErr Bytes
  verify : CKey → Bytes → Bytes → Bool × Option HErr

/-- The liboqs `oqs.Signature` wrapper, an external collaborator modelled by
its interface: `Init` (with optional secret-key bytes), keypair generation
(returning the public key and the exported secret key), native signing with
a given secret key, and verification against a public key. -/
structure OqsSig where
  init : Option Bytes → Except HErr Unit
  keypair : Except HErr (Bytes × Bytes)
  sign : Bytes → Bytes → Except HErr Bytes
  verify : Bytes → Bytes → Bytes → Bool × Option HErr

/-- liboqs-go `Signature.Sign`: refuses to sign when no secret key was
supplied by `Init` or produced by `GenerateKeyPair` (the specification's
PostQuantumSigner contract: signing requires private material). -/
def oqsSign (o : OqsSig) (sk : Option Bytes) (msg : Bytes) : Except HErr Bytes :=
  match sk with
  | none => .error (.oqs "secret key not set")
  | some s => o.sign s msg

namespace Codec

/-- Model of `combineSignatures` (codec draft with the explicit bounds guard):
`[4 bytes ECDSA len][ECDSA sig][PQC sig]`; the length prefix is
`uint32(len(ecdsaSig))`, i.e. the length modulo `2^32`. -/
def combineSignatures (ecdsaSig pqcSig : Bytes) : Bytes :=
  putUint32BE (ecdsaSig.length % 4294967296) ++ ecdsaSig ++ pqcSig

/-- Model of `parseHybridSignature` (guarded variant): length check, explicit
`ecdsaLen > uint32(len(signature)-4)` guard, redundant
`len(signature) < int(4+ecdsaLen)` check, then the two slices.  The slice
`signature[4 : 4+ecdsaLen]` computes its upper bound in `uint32`
arithmetic; if the wrapped bound drops below 4 the slice expression
panics. -/
def parseHybridSignature (signature : Bytes) : GoRes (Except HErr (Bytes × Bytes)) :=
  if signature.length < 4 then .ok (.error .sigTooShort)
  else
    let ecdsaLen := beUint32 signature
    if (signature.length - 4) % 4294967296 < ecdsaLen then .ok (.error .ecdsaLenExceeds)
    else
      let bound := (4 + ecdsaLen) % 4294967296
      if signature.length < bound then .ok (.error .invalidSigFormat)
      else if bound < 4 then .panicked
      else .ok (.ok ((signature.drop 4).take (bound - 4), signature.drop bound))

end Codec

namespace Hybrid

/-- Model of `combineSignatures` of the complete facade file (same body as the
guarded codec draft). -/
def combineSignatures (ecdsaSig pqcSig : Bytes) : Bytes :=
  putUint32BE (ecdsaSig.length % 4294967296) ++ ecdsaSig ++ pqcSig

/-- Model of `parseHybridSignature` of the complete facade file: it has the
`len(signature) < 4` check and the `len(signature) < int(4+ecdsaLen)`
check, but no guard against `4+ecdsaLen` wrapping in `uint32`; when the
wrapped bound drops below 4 the slice `signature[4 : 4+ecdsaLen]`
panics. -/
def parseHybridSignature (signature : Bytes) : GoRes (Except HErr (Bytes × Bytes)) :=
  if signature.length < 4 then .ok (.error .sigTooShort)
  else
    let bound := (4 + beUint32 signature) % 4294967296
    if signature.length < bound then .ok (.error .invalidSigFormat)
    else if bound < 4 then .panicked
    else .ok (.ok ((signature.drop 4).take (bound - 4), signature.drop bound))

/-- Model of `fmt.Errorf("ECDSA verify failed: %w", err)` — the wrapped cause may be
nil (pure mismatch), which still yields a non-nil error value in Go. -/
def wrapEV : Option HErr → HErr
  | some e => .ecdsaVerifyFailed e
  | none => .ecdsaVerifyRejected

/-- Model of `HybridBCCSP.KeyGen`: classical keygen via the adapter, then a fresh
`oqs.Signature` (cleaned via defer), `Init`, `GenerateKeypair`, and export
of the secret key into the returned `hybridKey`. -/
def KeyGen (sw : SwBCCSP) (o : OqsSig) : Except HErr Key :=
  match sw.keyGen with
  | .error e => .error (.ecdsaKeyGenFailed e)
  | .ok ecdsaKey =>
    match o.init none with
    | .error e => .error (.pqcInitFailed e)
    | .ok _ =>
      match o.keypair with
      | .error e => .error (.pqcKeyGenFailed e)
      | .ok pq => .ok (.hybrid ⟨ecdsaKey, pq.1, some pq.2⟩)

/-- Model of `hybridKey.PublicKey()`: project the classical component and drop the
post-quantum private material. -/
def publicKeyOf (sw : SwBCCSP) (k : HybKey) : Except HErr HybKey :=
  match sw.pub k.ecdsaKey with
  | .error e => .error e
  | .ok ep => .ok ⟨ep, k.pqcPub, none⟩

/-- Model of `HybridBCCSP.Sign` of the complete facade: fallback to the classical
adapter for non-hybrid keys; otherwise ECDSA sign, `Init("Dilithium3",
hk.pqcPriv)`, post-quantum sign, and `combineSignatures`. -/
def Sign (sw : SwBCCSP) (o : OqsSig) (k : Key) (digest : Bytes) : Except HErr Bytes :=
  match k with
  | .classical ck => sw.sign ck digest
  | .hybrid hk =>
    match sw.sign hk.ecdsaKey digest with
    | .error e => .error (.ecdsaSignFailed e)
    | .ok ecdsaSig =>
      match o.init hk.pqcPriv with
      | .error e => .error (.pqcInitFailed e)
      | .ok _ =>
        match oqsSign o hk.pqcPriv digest with
        | .error e => .error (.pqcSignFailed e)
        | .ok pqcSig => .ok (combineSignatures ecdsaSig pqcSig)

/-- Model of `HybridBCCSP.Verify` of the complete facade: fallback to the classical
adapter for non-hybrid keys; otherwise parse the blob, verify the classical
half (returning a wrapped — possibly nil-cause — error when it errors or
mismatches), init a fresh verifier, verify the post-quantum half, and
return the conjunction. -/
def Verify (sw : SwBCCSP) (o : OqsSig) (k : Key) (signature digest : Bytes) :
    GoRes (Bool × Option HErr) :=
  match k with
  | .classical ck => .ok (sw.verify ck signature digest)
  | .hybrid hk =>
    match parseHybridSignature signature with
    | .panicked => .panicked
    | .ok (.error e) => .ok (false, some (.parseSignatureFailed e))
    | .ok (.ok sigs) =>
      let rc := sw.verify hk.ecdsaKey sigs.1 digest
      if rc.2.isSome || !rc.1 then .ok (false, some (wrapEV rc.2))
      else
        match o.init none with
        | .error e => .ok (false, some (.pqcInitFailed e))
        | .ok _ =>
          let rp := o.verify digest sigs.2 hk.pqcPub
          match rp.2 with
          | some e => .ok (false, some (.pqcVerifyFailed e))
          | none => .ok (rc.1 && rp.1, none)

end Hybrid

namespace DraftGo

/-- Draft `sign.go` `Sign`: rejects non-hybrid keys with an
invalid-key-type error, then calls `key.pqcPriv.Sign(digest)` on the stored
`*PQCSigner` — a nil handle (public-only key) is dereferenced and the call
panics; on success only the post-quantum signature is returned. -/
def Sign (o : OqsSig) (k : Key) (digest : Bytes) : GoRes (Except HErr Bytes) :=
  match k with
  | .classical _ => .ok (.error .invalidKeyType)
  | .hybrid hk =>
    match hk.pqcPriv with
    | none => .panicked
    | some sk =>
      match o.sign sk digest with
      | .error e => .ok (.error (.pqcSignFailed e))
      | .ok sig => .ok (.ok sig)

/-- Draft `verify.go` `Verify`: rejects non-hybrid keys, requires a
non-empty post-quantum public key, then verifies the ENTIRE signature blob
with the post-quantum verifier only — the classical component is never
checked. -/
def Verify (o : OqsSig) (k : Key) (signature digest : Bytes) : Bool × Option HErr :=
  match k with
  | .classical _ => (false, some .invalidKeyType)
  | .hybrid hk =>
    if hk.pqcPub.length = 0 then (false, some .pqcPubEmpty)
    else
      match o.init none with
      | .error e => (false, some (.pqcInitFailed e))
      | .ok _ =>
        let r := o.verify digest signature hk.pqcPub
        match r.2 with
        | some e => (false, some (.pqcVerifyFailed e))
        | none => (r.1, none)

end DraftGo

/-!
Native-resource discipline.  Each operation that creates an `oqs.Signature`
is abstracted to the exit path taken (which collaborator calls succeed) and
yields the pair (number of successfully initialized contexts, number of
`Clean` calls).  The complete facade registers `defer signer.Clean()`
immediately after creating the signature object, before `Init`, so `Clean`
runs on every exit path once the object exists.
-/

/-- Exit-path trace of the facade `KeyGen`: classical keygen, then signer +
defer Clean, `Init`, `GenerateKeypair`.  Returns (initialized contexts,
Clean calls) for the path selected by the three outcomes. -/
def keyGenCleanTrace (ecdsaOk initOk genOk : Bool) : Nat × Nat :=
  if !ecdsaOk then (0, 0)
  else if !initOk then (0, 1)
  else if !genOk then (1, 1)
  else (1, 1)

/-- Exit-path trace of the facade `Sign` (hybrid branch): classical sign,
then signer + defer Clean, `Init`, post-quantum sign. -/
def signCleanTrace (ecdsaOk initOk pqcOk : Bool) : Nat × Nat :=
  if !ecdsaOk then (0, 0)
  else if !initOk then (0, 1)
  else if !pqcOk then (1, 1)
  else (1, 1)

/-- Exit-path trace of the facade `Verify` (hybrid branch): parse, classical
verify, then signer + defer Clean, `Init`, post-quantum verify. -/
def verifyCleanTrace (parseOk ecdsaOk initOk : Bool) : Nat × Nat :=
  if !parseOk then (0, 0)
  else if !ecdsaOk then (0, 0)
  else if !initOk then (0, 1)
  else (1, 1)

/-- Exit-path trace of `NewPQCSigner` as written in the Dilithium2 draft:
`Init`, then `GenerateKeyPair`; on keypair failure the function returns the
error WITHOUT calling `Clean`; on success the live handle is returned to
the caller (ownership transfer, no `Clean` inside the constructor). -/
def newPQCSignerTraceDil2 (initOk genOk : Bool) : Nat × Nat :=
  if !initOk then (0, 0)
  else if !genOk then (1, 0)
  else (1, 0)

/-- Exit-path trace of `NewPQCSigner` in the ML-DSA-65 `pqc_signer.go`:
identical except that the keypair-failure path calls `signer.Clean()`
before returning the error. -/
def newPQCSignerTraceMLDSA (initOk genOk : Bool) : Nat × Nat :=
  if !initOk then (0, 0)
  else if !genOk then (1, 1)
  else (1, 0)

/-- Hybrid keys reachable through the public interface of the complete
facade: results of `KeyGen` and `PublicKey()`-projections of reachable
keys. -/
inductive Reachable (sw : SwBCCSP) (o : OqsSig) : HybKey → Prop where
  | keygen (hk : HybKey) : Hybrid.KeyGen sw o = .ok (.hybrid hk) → Reachable sw o hk
  | pub (hk hk2 : HybKey) : Reachable sw o hk → Hybrid.publicKeyOf sw hk = .ok hk2 →
      Reachable sw o hk2

/-!
Concrete collaborator instances used for witnesses and counterexamples.
-/

/-- A toy classical adapter whose signature over `d` with key `k` is
`k.material ++ d` and whose verification checks exactly that; key
generation yields a private key with material `[1]` and the public
projection clears the `Private()` flag. -/
def swToy : SwBCCSP :=
  ⟨.ok ⟨[1], true⟩,
   fun k => .ok ⟨k.material, false⟩,
   fun k d => .ok (k.material ++ d),
   fun k s d => (decide (s = k.material ++ d), none)⟩

/-- A classical adapter whose verification always reports a mismatch with
no engine error (`(false, nil)`). -/
def swMismatch : SwBCCSP :=
  ⟨.ok ⟨[1], true⟩,
   fun k => .ok ⟨k.material, false⟩,
   fun k d => .ok (k.material ++ d),
   fun _ _ _ => (false, none)⟩

/-- A toy post-quantum engine: `Init` always succeeds, the generated
keypair is `([2], [3])`, signing with secret key `sk` yields `sk ++ msg`,
and verification checks a signature against `[3] ++ msg` (so it accepts
exactly the signatures made with the generated secret key). -/
def oqsToy : OqsSig :=
  ⟨fun _ => .ok (),
   .ok ([2], [3]),
   fun sk m => .ok (sk ++ m),
   fun m s _ => (decide (s = [3] ++ m), none)⟩

/-- A post-quantum engine whose verification accepts everything without
engine error. -/
def oqsAccept : OqsSig :=
  ⟨fun _ => .ok (), .ok ([2], [3]), fun sk m => .ok (sk ++ m), fun _ _ _ => (true, none)⟩

/-- A post-quantum engine whose verification rejects everything without
engine error (`(false, nil)`). -/
def oqsRejectNoErr : OqsSig :=
  ⟨fun _ => .ok (), .ok ([2], [3]), fun sk m => .ok (sk ++ m), fun _ _ _ => (false, none)⟩

/-!
Helper lemmas about the wire format.
-/

/-- Reading back the four written big-endian bytes recovers any value below
`2^32`, whatever follows them. -/
theorem beUint32_putUint32BE (v : Nat) (rest : Bytes) (h : v < 4294967296) :
    beUint32 (putUint32BE v ++ rest) = v := by
  simp only [putUint32BE, List.cons_append, List.nil_append, beUint32]
  omega

/-- The length of a combined blob (complete-facade variant). -/
theorem hybrid_combine_length (A B : Bytes) :
    (Hybrid.combineSignatures A B).length = 4 + A.length + B.length := by
  simp [Hybrid.combineSignatures, putUint32BE]
  omega

/-- Parse-after-combine round trip for the complete facade's codec: it
holds for every `B` as soon as `4 + len A` does not wrap in `uint32`. -/
theorem hybrid_parse_combine (A B : Bytes) (h : A.length + 4 < 4294967296) :
    Hybrid.parseHybridSignature (Hybrid.combineSignatures A B) = .ok (.ok (A, B)) := by
  have hAm : A.length % 4294967296 = A.length := Nat.mod_eq_of_lt (by omega)
  have hbe : beUint32 (Hybrid.combineSignatures A B) = A.length := by
    rw [Hybrid.combineSignatures, hAm, List.append_assoc]
    exact beUint32_putUint32BE A.length (A ++ B) (by omega)
  have hlen := hybrid_combine_length A B
  have hbound : (4 + beUint32 (Hybrid.combineSignatures A B)) % 4294967296
      = 4 + A.length := by rw [hbe]; exact Nat.mod_eq_of_lt (by omega)
  have hdrop4 : (Hybrid.combineSignatures A B).drop 4 = A ++ B := by
    rw [Hybrid.combineSignatures, hAm, List.append_assoc]
    have : (putUint32BE A.length).length = 4 := by simp [putUint32BE]
    rw [← this, List.drop_left]
  rw [Hybrid.parseHybridSignature]
  rw [if_neg (by omega)]
  simp only [hbound]
  rw [if_neg (by omega), if_neg (by omega), hdrop4]
  have htake : (A ++ B).take (4 + A.length - 4) = A := by
    simp [List.take_left]
  have hdropAll : (Hybrid.combineSignatures A B).drop (4 + A.length) = B := by
    rw [Hybrid.combineSignatures, hAm]
    have : (putUint32BE A.length ++ A).length = 4 + A.length := by
      simp [putUint32BE]
      omega
    rw [← this, List.drop_left]
  rw [htake, hdropAll]

/-- Combining a classical buffer of exactly `2^32` bytes writes the length
bytes `[0,0,0,0]` (guarded codec draft). -/
theorem codec_combine_wrap (A : Bytes) (hA : A.length = 4294967296) :
    Codec.combineSignatures A [0] = 0 :: 0 :: 0 :: 0 :: (A ++ [0]) := by
  rw [Codec.combineSignatures, hA]
  norm_num [putUint32BE]

/-- Parsing the combination of a `2^32`-byte classical buffer with `[0]`
silently succeeds with the WRONG split (guarded codec draft): the length
bytes wrapped to zero, so the classical half comes back empty. -/
theorem codec_parse_combine_wrap (A : Bytes) (hA : A.length = 4294967296) :
    Codec.parseHybridSignature (Codec.combineSignatures A [0])
      = .ok (.ok (([] : Bytes), A ++ [0])) := by
  rw [codec_combine_wrap A hA, Codec.parseHybridSignature]
  simp only [beUint32, List.length_cons, List.length_append, List.length_singleton, hA]
  norm_num [List.drop, List.take]

/-- Same combination through the complete facade's codec. -/
theorem hybrid_combine_wrap (A : Bytes) (hA : A.length = 4294967296) :
    Hybrid.combineSignatures A [0] = 0 :: 0 :: 0 :: 0 :: (A ++ [0]) := by
  rw [Hybrid.combineSignatures, hA]
  norm_num [putUint32BE]

/-- Parsing the same over-long combination with the complete facade's
parser also silently returns the wrong split. -/
theorem hybrid_parse_combine_wrap (A : Bytes) (hA : A.length = 4294967296) :
    Hybrid.parseHybridSignature (Hybrid.combineSignatures A [0])
      = .ok (.ok (([] : Bytes), A ++ [0])) := by
  rw [hybrid_combine_wrap A hA, Hybrid.parseHybridSignature]
  simp only [beUint32, List.length_cons, List.length_append, List.length_singleton, hA]
  norm_num [List.drop, List.take]

/-- The length of a combined blob (guarded codec draft). -/
theorem codec_combine_length (A B : Bytes) :
    (Codec.combineSignatures A B).length = 4 + A.length + B.length := by
  simp [Codec.combineSignatures, putUint32BE]
  omega

/-- Parse-after-combine round trip for the guarded codec draft: it holds
whenever the whole combined blob is shorter than `2^32` bytes. -/
theorem codec_parse_combine (A B : Bytes) (h : 4 + A.length + B.length < 4294967296) :
    Codec.parseHybridSignature (Codec.combineSignatures A B) = .ok (.ok (A, B)) := by
  have hAm : A.length % 4294967296 = A.length := Nat.mod_eq_of_lt (by omega)
  have hbe : beUint32 (Codec.combineSignatures A B) = A.length := by
    rw [Codec.combineSignatures, hAm, List.append_assoc]
    exact beUint32_putUint32BE A.length (A ++ B) (by omega)
  have hlen := codec_combine_length A B
  have hbound : (4 + beUint32 (Codec.combineSignatures A B)) % 4294967296
      = 4 + A.length := by rw [hbe]; exact Nat.mod_eq_of_lt (by omega)
  have hdrop4 : (Codec.combineSignatures A B).drop 4 = A ++ B := by
    rw [Codec.combineSignatures, hAm, List.append_assoc]
    have : (putUint32BE A.length).length = 4 := by simp [putUint32BE]
    rw [← this, List.drop_left]
  rw [Codec.parseHybridSignature]
  rw [if_neg (by omega)]
  rw [if_neg (by rw [hbe]; omega)]
  simp only [hbound]
  rw [if_neg (by omega), if_neg (by omega), hdrop4]
  have htake : (A ++ B).take (4 + A.length - 4) = A := by
    simp [List.take_left]
  have hdropAll : (Codec.combineSignatures A B).drop (4 + A.length) = B := by
    rw [Codec.combineSignatures, hAm]
    have : (putUint32BE A.length ++ A).length = 4 + A.length := by
      simp [putUint32BE]
      omega
    rw [← this, List.drop_left]
  rw [htake, hdropAll]

/-!
Claim theorems.
-/

/-- C1: the complete facade accepts a combined signature only if both the
classical and the post-quantum verification succeed, but the draft
`verify.go` variant drops the classical check entirely: on a hybrid key it
verifies the whole blob with the post-quantum verifier only, so a blob
whose classical half does not verify (the classical adapter here rejects
everything) is nevertheless accepted, while the complete facade rejects
the very same blob. -/
theorem c1_draft_drops_classical_check :
    DraftGo.Verify oqsAccept (.hybrid ⟨⟨[1], false⟩, [2], none⟩)
        (Hybrid.combineSignatures [9, 9] [7]) [5] = (true, none)
  ∧ Hybrid.Verify swMismatch oqsAccept (.hybrid ⟨⟨[1], false⟩, [2], none⟩)
        (Hybrid.combineSignatures [9, 9] [7]) [5]
      = .ok (false, some .ecdsaVerifyRejected) := by
  constructor
  · decide
  · decide

/-- C4: the guarded codec parser returns malformed-signature errors on both
adversarial inputs named by the specification, and so does the complete
facade's parser on the short input; but on `[FF FF FF FF 01 02]` the
facade's parser computes the slice bound `4 + 0xFFFFFFFF` in `uint32`
arithmetic, obtains 3, passes the length check, and panics on the slice
`signature[4:3]` instead of returning an error. -/
theorem c4_parse_adversarial_inputs :
    Codec.parseHybridSignature [1, 2] = .ok (.error .sigTooShort)
  ∧ Codec.parseHybridSignature [255, 255, 255, 255, 1, 2] = .ok (.error .ecdsaLenExceeds)
  ∧ Hybrid.parseHybridSignature [1, 2] = .ok (.error .sigTooShort)
  ∧ Hybrid.parseHybridSignature [255, 255, 255, 255, 1, 2] = .panicked := by
  refine ⟨?_, ?_, ?_, ?_⟩ <;> decide

/-- C7 (amended): for a non-hybrid key the complete facade's `Sign` and
`Verify` delegate to the classical adapter and return exactly its result,
while the draft `sign.go`/`verify.go` reject non-hybrid keys with an
invalid-key-type error instead of delegating. -/
theorem c7_fallback_policy :
    (∀ (sw : SwBCCSP) (o : OqsSig) (ck : CKey) (digest : Bytes),
        Hybrid.Sign sw o (.classical ck) digest = sw.sign ck digest)
  ∧ (∀ (sw : SwBCCSP) (o : OqsSig) (ck : CKey) (signature digest : Bytes),
        Hybrid.Verify sw o (.classical ck) signature digest
          = .ok (sw.verify ck signature digest))
  ∧ (∀ (o : OqsSig) (ck : CKey) (digest : Bytes),
        DraftGo.Sign o (.classical ck) digest = .ok (.error .invalidKeyType))
  ∧ (∀ (o : OqsSig) (ck : CKey) (signature digest : Bytes),
        DraftGo.Verify o (.classical ck) signature digest
          = (false, some .invalidKeyType)) :=
  ⟨fun _ _ _ _ => rfl, fun _ _ _ _ _ => rfl, fun _ _ _ => rfl, fun _ _ _ _ => rfl⟩

/-- C7 counterexample: the claim as stated fails on the draft files — with
a plain classical key whose adapter signature exists, the draft `Sign`
returns an invalid-key-type error, not what the adapter returns. -/
theorem c7_counterexample :
    swToy.sign ⟨[1], true⟩ [5] = .ok [1, 5]
  ∧ DraftGo.Sign oqsToy (.classical ⟨[1], true⟩) [5]
      ≠ .ok (swToy.sign ⟨[1], true⟩ [5]) := by
  constructor
  · decide
  · decide

/-- C8: in the complete facade every operation that creates an
`oqs.Signature` calls `Clean` exactly once on every exit path (the defer
is registered before `Init`, so the count of Clean calls is 1 exactly when
the signature object was created, and a successfully initialized context
is always cleaned); the ML-DSA-65 `NewPQCSigner` cleans the context on its
keypair-failure exit, but the Dilithium2 draft `NewPQCSigner` returns from
that same exit with zero `Clean` calls, leaking the initialized context. -/
theorem c8_clean_discipline :
    (∀ e i g, keyGenCleanTrace e i g
        = ((if e && i then 1 else 0), (if e then 1 else 0)))
  ∧ (∀ e i p, signCleanTrace e i p
        = ((if e && i then 1 else 0), (if e then 1 else 0)))
  ∧ (∀ p e i, verifyCleanTrace p e i
        = ((if p && e && i then 1 else 0), (if p && e then 1 else 0)))
  ∧ newPQCSignerTraceMLDSA true false = (1, 1)
  ∧ newPQCSignerTraceDil2 true false = (1, 0) := by
  refine ⟨?_, ?_, ?_, ?_, ?_⟩ <;> decide

/-- C10: the 4-byte prefix written by `combineSignatures` carries the
classical length modulo `2^32`, it equals the length exactly when the
length is below `2^32`, and for a classical buffer of exactly `2^32` bytes
the parse-after-combine round trip silently returns the wrong split
(empty classical half) instead of failing. -/
theorem c10_length_field_mod_2_32 :
    (∀ A B : Bytes, beUint32 (Hybrid.combineSignatures A B) = A.length % 4294967296)
  ∧ (∀ A B : Bytes,
      (beUint32 (Hybrid.combineSignatures A B) = A.length ↔ A.length < 4294967296))
  ∧ Hybrid.parseHybridSignature
        (Hybrid.combineSignatures (List.replicate 4294967296 0) [0])
      = .ok (.ok (([] : Bytes), List.replicate 4294967296 0 ++ [0])) := by
  have hval : ∀ A B : Bytes,
      beUint32 (Hybrid.combineSignatures A B) = A.length % 4294967296 := by
    intro A B
    rw [Hybrid.combineSignatures, List.append_assoc]
    exact beUint32_putUint32BE _ _ (Nat.mod_lt _ (by norm_num))
  refine ⟨hval, ?_, ?_⟩
  · intro A B
    rw [hval A B]
    omega
  · exact hybrid_parse_combine_wrap (List.replicate 4294967296 0)
      (List.length_replicate 4294967296 0)

/-- C2 (amended): the codec round trip holds for all non-empty buffers
whose combined blob stays below `2^32` bytes, and the specification's
concrete 9-byte case holds bit-exactly. -/
theorem c2_codec_round_trip (A B : Bytes) (hA : A ≠ []) (hB : B ≠ [])
    (hlen : 4 + A.length + B.length < 4294967296) :
    Codec.parseHybridSignature (Codec.combineSignatures A B) = .ok (.ok (A, B))
  ∧ Codec.combineSignatures [65, 66] [88, 89, 90] = [0, 0, 0, 2, 65, 66, 88, 89, 90]
  ∧ Codec.parseHybridSignature [0, 0, 0, 2, 65, 66, 88, 89, 90]
      = .ok (.ok ([65, 66], [88, 89, 90])) :=
  ⟨codec_parse_combine A B hlen, by decide, by decide⟩

/-- Witness for C2 at the specification's concrete buffers
`A = [0x41, 0x42]`, `B = [0x58, 0x59, 0x5A]`. -/
theorem c2_codec_round_trip_witness :
    (([65, 66] : Bytes) ≠ [] ∧ ([88, 89, 90] : Bytes) ≠ []
      ∧ 4 + ([65, 66] : Bytes).length + ([88, 89, 90] : Bytes).length < 4294967296)
  ∧ (Codec.parseHybridSignature (Codec.combineSignatures [65, 66] [88, 89, 90])
        = .ok (.ok ([65, 66], [88, 89, 90]))
    ∧ Codec.combineSignatures [65, 66] [88, 89, 90] = [0, 0, 0, 2, 65, 66, 88, 89, 90]
    ∧ Codec.parseHybridSignature [0, 0, 0, 2, 65, 66, 88, 89, 90]
        = .ok (.ok ([65, 66], [88, 89, 90]))) :=
  ⟨⟨by decide, by decide, by decide⟩,
   c2_codec_round_trip [65, 66] [88, 89, 90] (by decide) (by decide) (by decide)⟩

/-- C2 counterexample: for the non-empty buffers `A = 2^32 zero bytes` and
`B = [0]` the round trip fails — the length prefix wraps to 0 and parsing
returns the wrong split, not `(A, B)`. -/
theorem c2_counterexample :
    List.replicate 4294967296 (0 : Nat) ≠ [] ∧ ([0] : Bytes) ≠ []
  ∧ Codec.parseHybridSignature
        (Codec.combineSignatures (List.replicate 4294967296 0) [0])
      ≠ .ok (.ok (List.replicate 4294967296 0, [0])) := by
  refine ⟨?_, by decide, ?_⟩
  · intro h
    have hl := congrArg List.length h
    rw [List.length_replicate, List.length_nil] at hl
    omega
  · rw [codec_parse_combine_wrap (List.replicate 4294967296 0)
      (List.length_replicate 4294967296 0)]
    intro h
    simp only [GoRes.ok.injEq, Except.ok.injEq, Prod.mk.injEq] at h
    have hl := congrArg List.length h.1
    rw [List.length_nil, List.length_replicate] at hl
    omega

/-- C3: for any key pair produced by the facade `KeyGen`, assuming the
classical scheme accepts its own fresh signature over the digest, the
post-quantum scheme accepts its own fresh signature under the generated
keypair, both engines initialize, and the classical signature fits the
4-byte length prefix, `Verify(PublicKey(k), Sign(k, digest), digest)`
returns `(true, nil)`. -/
theorem c3_sign_verify_round_trip
    (sw : SwBCCSP) (o : OqsSig) (ck cpub : CKey)
    (pqpub pqpriv digest csig psig : Bytes)
    (hkg : sw.keyGen = .ok ck)
    (hio : o.init none = .ok ())
    (hkp : o.keypair = .ok (pqpub, pqpriv))
    (hpubproj : sw.pub ck = .ok cpub)
    (hcsign : sw.sign ck digest = .ok csig)
    (hclen : csig.length + 4 < 4294967296)
    (hcver : sw.verify cpub csig digest = (true, none))
    (hinitpriv : o.init (some pqpriv) = .ok ())
    (hpsign : o.sign pqpriv digest = .ok psig)
    (hpver : o.verify digest psig pqpub = (true, none)) :
    ∃ hk pk : HybKey,
      Hybrid.KeyGen sw o = .ok (.hybrid hk)
      ∧ Hybrid.publicKeyOf sw hk = .ok pk
      ∧ Hybrid.Sign sw o (.hybrid hk) digest = .ok (Hybrid.combineSignatures csig psig)
      ∧ Hybrid.Verify sw o (.hybrid pk) (Hybrid.combineSignatures csig psig) digest
          = .ok (true, none) := by
  refine ⟨⟨ck, pqpub, some pqpriv⟩, ⟨cpub, pqpub, none⟩, ?_, ?_, ?_, ?_⟩
  · rw [Hybrid.KeyGen, hkg, hio, hkp]
  · simp [Hybrid.publicKeyOf, hpubproj]
  · simp [Hybrid.Sign, hcsign, hinitpriv, oqsSign, hpsign]
  · simp [Hybrid.Verify, hybrid_parse_combine csig psig hclen, hcver, hio, hpver]

/-- Witness for C3 with the toy classical and post-quantum engines. -/
theorem c3_sign_verify_round_trip_witness :
    (swToy.keyGen = .ok ⟨[1], true⟩
      ∧ oqsToy.init none = .ok ()
      ∧ oqsToy.keypair = .ok ([2], [3])
      ∧ swToy.pub ⟨[1], true⟩ = .ok ⟨[1], false⟩
      ∧ swToy.sign ⟨[1], true⟩ [5] = .ok [1, 5]
      ∧ ([1, 5] : Bytes).length + 4 < 4294967296
      ∧ swToy.verify ⟨[1], false⟩ [1, 5] [5] = (true, none)
      ∧ oqsToy.init (some [3]) = .ok ()
      ∧ oqsToy.sign [3] [5] = .ok [3, 5]
      ∧ oqsToy.verify [5] [3, 5] [2] = (true, none))
  ∧ (∃ hk pk : HybKey,
      Hybrid.KeyGen swToy oqsToy = .ok (.hybrid hk)
      ∧ Hybrid.publicKeyOf swToy hk = .ok pk
      ∧ Hybrid.Sign swToy oqsToy (.hybrid hk) [5]
          = .ok (Hybrid.combineSignatures [1, 5] [3, 5])
      ∧ Hybrid.Verify swToy oqsToy (.hybrid pk)
          (Hybrid.combineSignatures [1, 5] [3, 5]) [5] = .ok (true, none)) :=
  ⟨⟨by decide, by decide, by decide, by decide, by decide, by decide, by decide,
    by decide, by decide, by decide⟩,
   c3_sign_verify_round_trip swToy oqsToy ⟨[1], true⟩ ⟨[1], false⟩ [2] [3] [5] [1, 5]
     [3, 5] (by decide) (by decide) (by decide) (by decide) (by decide) (by decide)
     (by decide) (by decide) (by decide) (by decide)⟩

/-- C5 (amended): the facade `Verify` returns `(false, nil)` exactly when
parsing succeeds, the classical verification returns true with no engine
error, the post-quantum verifier initializes, and the post-quantum
verification completes without engine error while reporting the signature
invalid; every other outcome — including a plain classical mismatch — comes
back with a non-nil error. -/
theorem c5_false_nil_characterization (sw : SwBCCSP) (o : OqsSig) (hk : HybKey)
    (signature digest : Bytes) :
    Hybrid.Verify sw o (.hybrid hk) signature digest = .ok (false, none)
      ↔ ∃ cs ps, Hybrid.parseHybridSignature signature = .ok (.ok (cs, ps))
          ∧ sw.verify hk.ecdsaKey cs digest = (true, none)
          ∧ o.init none = .ok ()
          ∧ o.verify digest ps hk.pqcPub = (false, none) := by
  simp only [Hybrid.Verify]
  cases hp : Hybrid.parseHybridSignature signature with
  | panicked => simp
  | ok r =>
    cases r with
    | error e => simp
    | ok sigs =>
      obtain ⟨cs, ps⟩ := sigs
      simp only [GoRes.ok.injEq, Except.ok.injEq, Prod.mk.injEq]
      cases hrc : sw.verify hk.ecdsaKey cs digest with
      | mk b e =>
        cases e with
        | some e0 => simp [hrc]
        | none =>
          cases b with
          | false => simp [hrc]
          | true =>
            simp only [Option.isSome_none, Bool.not_true, Bool.or_self, Bool.false_or,
              Bool.not_false, if_false]
            cases hi : o.init none with
            | error e1 => simp [hi]
            | ok u =>
              cases u
              cases hrp : o.verify digest ps hk.pqcPub with
              | mk b2 e2 =>
                cases e2 with
                | some e3 => simp [hrp]
                | none =>
                  cases b2 with
                  | false =>
                    simp only [Bool.and_false, if_false, GoRes.ok.injEq, Prod.mk.injEq]
                    simp
                    exact ⟨cs, ps, ⟨rfl, rfl⟩, hrc, hrp⟩
                  | true => simp [hrp]

/-- C5 counterexample: a run in which both sub-verifications would complete
without engine error and report the signature invalid, yet the facade
`Verify` returns a NON-nil error: the classical mismatch is wrapped as an
"ECDSA verify failed" error rather than reported as `(false, nil)`. -/
theorem c5_counterexample :
    swMismatch.verify ⟨[1], false⟩ [9, 9] [5] = (false, none)
  ∧ oqsRejectNoErr.verify [5] [7] [2] = (false, none)
  ∧ Hybrid.Verify swMismatch oqsRejectNoErr (.hybrid ⟨⟨[1], false⟩, [2], none⟩)
        (Hybrid.combineSignatures [9, 9] [7]) [5]
      = .ok (false, some .ecdsaVerifyRejected)
  ∧ Hybrid.Verify swMismatch oqsRejectNoErr (.hybrid ⟨⟨[1], false⟩, [2], none⟩)
        (Hybrid.combineSignatures [9, 9] [7]) [5]
      ≠ .ok (false, none) := by
  refine ⟨?_, ?_, ?_, ?_⟩ <;> decide

/-- C6 (amended): for every hybrid key without post-quantum private
material the facade `Sign` returns no signature and fails, but with an
error that is never the invalid-key-material class (the absent key is only
detected downstream — classical sign failure, init failure, or the
post-quantum library refusing to sign without a secret key); the draft
`sign.go` instead dereferences the nil signer handle and panics. -/
theorem c6_public_only_sign (sw : SwBCCSP) (o : OqsSig) (hk : HybKey) (digest : Bytes)
    (h : hk.pqcPriv = none) :
    (∃ e, Hybrid.Sign sw o (.hybrid hk) digest = .error e ∧ e ≠ .invalidKeyMaterial)
  ∧ DraftGo.Sign o (.hybrid hk) digest = .panicked := by
  constructor
  · simp only [Hybrid.Sign]
    cases hcs : sw.sign hk.ecdsaKey digest with
    | error e => exact ⟨.ecdsaSignFailed e, rfl, fun hc => nomatch hc⟩
    | ok s =>
      rw [h]
      cases hi : o.init none with
      | error e => exact ⟨.pqcInitFailed e, rfl, fun hc => nomatch hc⟩
      | ok u =>
        cases u
        exact ⟨.pqcSignFailed (.oqs "secret key not set"), rfl, fun hc => nomatch hc⟩
  · simp only [DraftGo.Sign, h]

/-- Witness for C6: a public-only hybrid key under the toy engines. -/
theorem c6_public_only_sign_witness :
    (⟨⟨[1], true⟩, [2], none⟩ : HybKey).pqcPriv = none
  ∧ ((∃ e, Hybrid.Sign swToy oqsToy (.hybrid ⟨⟨[1], true⟩, [2], none⟩) [5] = .error e
        ∧ e ≠ .invalidKeyMaterial)
    ∧ DraftGo.Sign oqsToy (.hybrid ⟨⟨[1], true⟩, [2], none⟩) [5] = .panicked) :=
  ⟨rfl, c6_public_only_sign swToy oqsToy ⟨⟨[1], true⟩, [2], none⟩ [5] rfl⟩

/-- C6 counterexample: on a concrete public-only hybrid key the facade
`Sign` fails with the wrapped post-quantum signing error, not with an
invalid-key-material error as claimed. -/
theorem c6_counterexample :
    Hybrid.Sign swToy oqsToy (.hybrid ⟨⟨[1], true⟩, [2], none⟩) [5]
      = .error (.pqcSignFailed (.oqs "secret key not set"))
  ∧ Hybrid.Sign swToy oqsToy (.hybrid ⟨⟨[1], true⟩, [2], none⟩) [5]
      ≠ .error .invalidKeyMaterial := by
  constructor
  · decide
  · decide

/-- C9: assuming the classical adapter hands out private keys from key
generation and public-only keys from the public projection, every hybrid
key reachable through the facade interface has post-quantum private
material exactly when its classical component is private — a fresh
`KeyGen` pair has both, a `PublicKey()` projection has neither. -/
theorem c9_private_material_invariant (sw : SwBCCSP) (o : OqsSig)
    (Hgen : ∀ ck, sw.keyGen = .ok ck → ck.priv = true)
    (Hpub : ∀ ck pk, sw.pub ck = .ok pk → pk.priv = false) :
    (∀ hk : HybKey, Hybrid.KeyGen sw o = .ok (.hybrid hk)
        → hk.pqcPriv.isSome = true ∧ hk.ecdsaKey.priv = true)
  ∧ (∀ hk hk2 : HybKey, Hybrid.publicKeyOf sw hk = .ok hk2
        → hk2.pqcPriv = none ∧ hk2.ecdsaKey.priv = false)
  ∧ (∀ hk : HybKey, Reachable sw o hk
        → (hk.pqcPriv.isSome = true ↔ hk.ecdsaKey.priv = true)) := by
  have part1 : ∀ hk : HybKey, Hybrid.KeyGen sw o = .ok (.hybrid hk)
      → hk.pqcPriv.isSome = true ∧ hk.ecdsaKey.priv = true := by
    intro hk hkg
    rw [Hybrid.KeyGen] at hkg
    cases hck : sw.keyGen with
    | error e => rw [hck] at hkg; exact absurd hkg (by simp)
    | ok ck =>
      rw [hck] at hkg
      cases hin : o.init none with
      | error e => rw [hin] at hkg; exact absurd hkg (by simp)
      | ok u =>
        rw [hin] at hkg
        cases hkp : o.keypair with
        | error e => rw [hkp] at hkg; exact absurd hkg (by simp)
        | ok pq =>
          rw [hkp] at hkg
          simp only [Except.ok.injEq, Key.hybrid.injEq] at hkg
          rw [← hkg]
          exact ⟨rfl, Hgen ck hck⟩
  have part2 : ∀ hk hk2 : HybKey, Hybrid.publicKeyOf sw hk = .ok hk2
      → hk2.pqcPriv = none ∧ hk2.ecdsaKey.priv = false := by
    intro hk hk2 hp
    rw [Hybrid.publicKeyOf] at hp
    cases hq : sw.pub hk.ecdsaKey with
    | error e => rw [hq] at hp; exact absurd hp (by simp)
    | ok ep =>
      rw [hq] at hp
      simp only [Except.ok.injEq] at hp
      rw [← hp]
      exact ⟨rfl, Hpub _ _ hq⟩
  refine ⟨part1, part2, ?_⟩
  intro hk hr
  induction hr with
  | keygen hk h =>
    obtain ⟨h1, h2⟩ := part1 hk h
    rw [h1, h2]
  | pub hk hk2 hr hp ih =>
    obtain ⟨h1, h2⟩ := part2 hk hk2 hp
    rw [h1, h2]
    simp

/-- Witness for C9: under the toy engines the generated key is reachable
and carries both private components. -/
theorem c9_private_material_invariant_witness :
    Hybrid.KeyGen swToy oqsToy = .ok (.hybrid ⟨⟨[1], true⟩, [2], some [3]⟩)
  ∧ ((⟨⟨[1], true⟩, [2], some [3]⟩ : HybKey).pqcPriv.isSome = true
      ↔ (⟨⟨[1], true⟩, [2], some [3]⟩ : HybKey).ecdsaKey.priv = true) := by
  have p1 : ∀ ck, swToy.keyGen = .ok ck → ck.priv = true := by
    intro ck h
    injection h with h
    rw [← h]
  have p2 : ∀ ck pk, swToy.pub ck = .ok pk → pk.priv = false := by
    intro ck pk h
    injection h with h
    rw [← h]
  refine ⟨by decide, ?_⟩
  exact (c9_private_material_invariant swToy oqsToy p1 p2).2.2 _
    (Reachable.keygen _ (by decide))
